import Mathlib

/-!
Verification development for the DND-DB-BUILDER sync server (`server.js`).

The server mirrors a read-only REST API into a relational database.  Two
orchestration shapes exist:

* the generic path (`syncResource`): walk the remote index, `await` each
  item's detail fetch in a loop, build a record with the resource's record
  builder, issue its upsert without awaiting, and settle all upserts
  together with `Promise.all`;
* the enriched path (`syncClasses`, `syncMonsters`, `syncRaces`, ...):
  process items strictly in order, each inside one database transaction
  that upserts the parent row and fully replaces every child table for
  that parent (`DELETE ... WHERE parent_key = ?` then one `INSERT` per
  extracted record), committing on success and rolling back on any error,
  aborting the remaining items on first failure.

Tables are modelled as Lean lists of rows; `DELETE` by key is `filter`,
an `INSERT` appends, and `INSERT ... ON DUPLICATE KEY UPDATE` overwrites
the row with the matching natural key in place.  Database errors are not
derivable from the source (they come from the MySQL server), so runs take
them as an oracle: each item carries the outcome of its own database
operation.
-/

set_option linter.unusedVariables false

namespace DndDbBuilder

/-- An entry of a resource's remote index list: `{name, url}`. -/
structure Endpoint where
  name : String
  url : String
  deriving DecidableEq

/-- A lightweight reference object inside a detail document (`{index, name}`). -/
structure APIRef where
  index : String
  name : String
  deriving DecidableEq

/-- The HTTP response produced by a sync endpoint (status code plus the JSON
body `{success, message}`). -/
structure HttpResponse where
  status : Nat
  success : Bool
  message : String
  deriving DecidableEq

/-- JavaScript `x || null` on an optional string: both an absent value and the
empty string are falsy and map to `null`. -/
def orNullStr : Option String → Option String
  | none => none
  | some s => if s = "" then none else some s

/-- Escape of one character inside a JSON string literal (the escapes relevant
to the data at hand: backslash, quote, newline). -/
def jsonEscapeChar (c : Char) : String :=
  if c = '\\' then "\\\\"
  else if c = '\"' then "\\\""
  else if c = '\n' then "\\n"
  else String.singleton c

/-- Rendering of `JSON.stringify` on one JavaScript string. -/
def jsonStr (s : String) : String :=
  "\"" ++ String.join (s.toList.map jsonEscapeChar) ++ "\""

/-- Rendering of `JSON.stringify` on an array of strings. -/
def jsonArrStr (xs : List String) : String :=
  "[" ++ String.intercalate "," (xs.map jsonStr) ++ "]"

/-- `INSERT ... ON DUPLICATE KEY UPDATE` against a table whose unique natural
key is `key`: when a row with the record's key exists it is overwritten in
place (every non-key column set to the new values, as the `VALUES(...)` update
list in the source sets each column), otherwise the record is appended. -/
def upsertRow {α : Type} (key : α → String) (t : List α) (r : α) : List α :=
  if t.any (fun x => key x == key r) then
    t.map (fun x => if key x == key r then r else x)
  else
    t ++ [r]

/-- The child-table replacement used by every enriched sync:
`DELETE FROM child WHERE parent_key_column = parentKey` followed by one
`INSERT` per extracted record (each child row carries the parent key). -/
def replaceChildren {γ : Type} (t : List (String × γ)) (parentKey : String)
    (rs : List γ) : List (String × γ) :=
  t.filter (fun row => !(row.1 == parentKey)) ++ rs.map (fun c => (parentKey, c))

/-- The `processedConditions : Set`-guarded insertion loop of `syncMonsters`
(first-seen wins), parameterised by the set of already-processed keys. -/
def dedupFirst (seen : List String) : List String → List String
  | [] => []
  | x :: xs =>
      if seen.contains x then dedupFirst seen xs
      else x :: dedupFirst (x :: seen) xs

/-- JavaScript `.filter(Boolean)` applied to a list of `string | null` values:
`null` and the empty string are falsy and are dropped. -/
def filterTruthyStr (xs : List (Option String)) : List String :=
  xs.filterMap (fun x =>
    match x with
    | none => none
    | some s => if s = "" then none else some s)

/-! ### Generic-path record mappers (`syncResource` record builders) -/

/-- Detail document of one skill (`/api/skills/...`): the fields the
`/sync-skills` record builder reads. -/
structure SkillDoc where
  index : String
  name : String
  desc : List String
  ability_score : APIRef
  deriving DecidableEq

/-- Row of the `skills` table. -/
structure SkillRecord where
  index : String
  name : String
  description : String
  ability_score : String
  deriving DecidableEq

/-- Record builder of `/sync-skills`. -/
def skillRecordOf (d : SkillDoc) : SkillRecord :=
  { index := d.index
    name := d.name
    description := String.intercalate "\n\n" d.desc
    ability_score := d.ability_score.name }

/-- Detail document shape shared by the resources whose builders read only
`index`, `name` and a paragraph-array `desc` (ability scores, damage types,
conditions, weapon properties). -/
structure SimpleDoc where
  index : String
  name : String
  desc : List String
  deriving DecidableEq

/-- Row shape of the `ability_scores`, `damage_types`, `conditions` and
`weapon_properties` tables. -/
structure SimpleRecord where
  index : String
  name : String
  description : String
  deriving DecidableEq

/-- Record builder of `/sync-ability-scores`. -/
def abilityScoreRecordOf (d : SimpleDoc) : SimpleRecord :=
  { index := d.index, name := d.name
    description := String.intercalate "\n\n" d.desc }

/-- Record builder of `/sync-damage-types`. -/
def damageTypeRecordOf (d : SimpleDoc) : SimpleRecord :=
  { index := d.index, name := d.name
    description := String.intercalate "\n\n" d.desc }

/-- Record builder of `/sync-conditions`. -/
def conditionRecordOf (d : SimpleDoc) : SimpleRecord :=
  { index := d.index, name := d.name
    description := String.intercalate "\n\n" d.desc }

/-- Record builder of `/sync-weapon-properties`. -/
def weaponPropertyRecordOf (d : SimpleDoc) : SimpleRecord :=
  { index := d.index, name := d.name
    description := String.intercalate "\n\n" d.desc }

/-- Detail document of one feat: the fields the `/sync-feats` builder reads
(`prerequisites` is passed through `JSON.stringify`; the document carries its
serialized text). -/
structure FeatDoc where
  index : String
  name : String
  prerequisites : String
  desc : List String
  deriving DecidableEq

/-- Row of the `feats` table. -/
structure FeatRecord where
  index : String
  name : String
  prerequisites : String
  description : String
  deriving DecidableEq

/-- Record builder of `/sync-feats`. -/
def featRecordOf (d : FeatDoc) : FeatRecord :=
  { index := d.index, name := d.name
    prerequisites := d.prerequisites
    description := String.intercalate "\n\n" d.desc }

/-- Detail document of one magic item: the fields the `/sync-magic-items`
builder reads. -/
structure MagicItemDoc where
  index : String
  name : String
  equipment_category : Option APIRef
  rarity : APIRef
  desc : List String
  deriving DecidableEq

/-- Row of the `magic_items` table. -/
structure MagicItemRecord where
  index : String
  name : String
  equipment_category_index : Option String
  rarity_name : String
  description : String
  deriving DecidableEq

/-- Record builder of `/sync-magic-items` (`detailData.equipment_category ?
detailData.equipment_category.index : null`). -/
def magicItemRecordOf (d : MagicItemDoc) : MagicItemRecord :=
  { index := d.index, name := d.name
    equipment_category_index := d.equipment_category.map (fun r => r.index)
    rarity_name := d.rarity.name
    description := String.intercalate "\n\n" d.desc }

/-- Detail document of one feature: the fields the `/sync-features` builder
reads (`cls` stands for the source's `class` field, a Lean keyword). -/
structure FeatureDoc where
  index : String
  name : String
  cls : APIRef
  subclass : Option APIRef
  level : Int
  desc : List String
  deriving DecidableEq

/-- Row of the `features` table (`cls` stands for the `class` column). -/
structure FeatureRecord where
  index : String
  name : String
  cls : String
  subclass : Option String
  level : Int
  description : String
  deriving DecidableEq

/-- Record builder of `/sync-features`. -/
def featureRecordOf (d : FeatureDoc) : FeatureRecord :=
  { index := d.index, name := d.name
    cls := d.cls.name
    subclass := d.subclass.map (fun r => r.name)
    level := d.level
    description := String.intercalate "\n\n" d.desc }

/-! ### Enriched-path models -/

/-- Detail document of one spell: the fields `syncSpells` reads.  The `damage`
sub-object is passed through `JSON.stringify` unexamined; the document carries
its serialized text. -/
structure SpellDoc where
  index : String
  name : String
  desc : List String
  higher_level : Option (List String)
  range : String
  components : List String
  material : Option String
  ritual : Bool
  duration : String
  concentration : Bool
  casting_time : String
  level : Int
  school : APIRef
  damage : String
  classes : List APIRef
  subclasses : List APIRef
  deriving DecidableEq

/-- Row of the `spells` table. -/
structure SpellRecord where
  index : String
  name : String
  description : String
  higher_level : Option String
  spell_range : String
  components : String
  material : Option String
  ritual : Bool
  duration : String
  concentration : Bool
  casting_time : String
  spell_level : Int
  school_index : String
  damage : String
  deriving DecidableEq

/-- The `spellRecord` built inside `syncSpells` (`higher_level` is joined only
when present — a present array, even an empty one, is truthy in JavaScript —
and `material || null` nullifies the absent and empty cases). -/
def spellRecordOf (d : SpellDoc) : SpellRecord :=
  { index := d.index, name := d.name
    description := String.intercalate "\n\n" d.desc
    higher_level := d.higher_level.map (String.intercalate "\n\n")
    spell_range := d.range
    components := jsonArrStr d.components
    material := orNullStr d.material
    ritual := d.ritual
    duration := d.duration
    concentration := d.concentration
    casting_time := d.casting_time
    spell_level := d.level
    school_index := d.school.index
    damage := d.damage }

/-- Detail document of one trait: the fields its record builder reads (the
child-reference lists are kept for completeness). -/
structure TraitDoc where
  index : String
  name : String
  desc : List String
  races : List APIRef
  subraces : List APIRef
  proficiencies : List APIRef
  deriving DecidableEq

/-- Row of the `traits` table. -/
structure TraitRecord where
  index : String
  name : String
  description : String
  deriving DecidableEq

/-- The `traitRecord` built inside `syncTraits`. -/
def traitRecordOf (d : TraitDoc) : TraitRecord :=
  { index := d.index, name := d.name
    description := String.intercalate "\n\n" d.desc }

/-- Detail document of one subclass: the fields its record builder reads
(`cls` stands for the source's `class` field). -/
structure SubclassDoc where
  index : String
  name : String
  cls : APIRef
  subclass_flavor : String
  desc : List String
  deriving DecidableEq

/-- Row of the `subclasses` table. -/
structure SubclassRecord where
  index : String
  name : String
  class_index : String
  subclass_flavor : String
  description : String
  deriving DecidableEq

/-- The `subRecord` built inside `syncSubclasses`. -/
def subclassRecordOf (d : SubclassDoc) : SubclassRecord :=
  { index := d.index, name := d.name
    class_index := d.cls.index
    subclass_flavor := d.subclass_flavor
    description := String.intercalate "\n\n" d.desc }

/-- One entry of a monster's `proficiencies` list. -/
structure MonsterProfDoc where
  proficiency : APIRef
  value : Int
  deriving DecidableEq

/-- Detail document of one monster: the fields `syncMonsters` reads.  Fields
that are passed through `JSON.stringify` unexamined (`armor_class`, `speed`,
`senses`, `special_abilities`, `actions`, `legendary_actions`) carry their
serialized text; the damage-string arrays are serialized with `jsonArrStr`. -/
structure MonsterDoc where
  index : String
  name : String
  size : String
  type : String
  subtype : Option String
  alignment : String
  armor_class : String
  hit_points : Int
  hit_dice : String
  speed : String
  strength : Int
  dexterity : Int
  constitution : Int
  intelligence : Int
  wisdom : Int
  charisma : Int
  damage_vulnerabilities : List String
  damage_resistances : List String
  damage_immunities : List String
  senses : String
  languages : String
  challenge_rating : Rat
  xp : Int
  special_abilities : String
  actions : String
  legendary_actions : String
  proficiencies : List MonsterProfDoc
  condition_immunities : List APIRef
  deriving DecidableEq

/-- Row of the `monsters` table. -/
structure MonsterRecord where
  index : String
  name : String
  size : String
  type : String
  subtype : Option String
  alignment : String
  armor_class : String
  hit_points : Int
  hit_dice : String
  speed : String
  strength : Int
  dexterity : Int
  constitution : Int
  intelligence : Int
  wisdom : Int
  charisma : Int
  damage_vulnerabilities : String
  damage_resistances : String
  damage_immunities : String
  senses : String
  languages : String
  challenge_rating : Rat
  xp : Int
  special_abilities : String
  actions : String
  legendary_actions : String
  deriving DecidableEq

/-- The `monsterRecord` built inside `syncMonsters` (`subtype || null`
nullifies the absent and empty cases). -/
def monsterRecordOf (d : MonsterDoc) : MonsterRecord :=
  { index := d.index, name := d.name, size := d.size
    type := d.type
    subtype := orNullStr d.subtype
    alignment := d.alignment
    armor_class := d.armor_class
    hit_points := d.hit_points, hit_dice := d.hit_dice
    speed := d.speed
    strength := d.strength, dexterity := d.dexterity
    constitution := d.constitution, intelligence := d.intelligence
    wisdom := d.wisdom, charisma := d.charisma
    damage_vulnerabilities := jsonArrStr d.damage_vulnerabilities
    damage_resistances := jsonArrStr d.damage_resistances
    damage_immunities := jsonArrStr d.damage_immunities
    senses := d.senses
    languages := d.languages
    challenge_rating := d.challenge_rating, xp := d.xp
    special_abilities := d.special_abilities
    actions := d.actions
    legendary_actions := d.legendary_actions }

/-- The tables written by `syncMonsters`.  Child rows pair the parent key with
the child payload: `(monster_index, proficiency_index, value)` and
`(monster_index, condition_index)`. -/
structure MonsterDB where
  monsters : List MonsterRecord
  monster_proficiencies : List (String × String × Int)
  monster_condition_immunities : List (String × String)
  deriving DecidableEq

/-- The empty monster database. -/
def emptyMonsterDB : MonsterDB :=
  { monsters := [], monster_proficiencies := [], monster_condition_immunities := [] }

/-- One committed `syncMonsters` item transaction: upsert the parent row,
delete-then-reinsert `monster_proficiencies` verbatim, and
delete-then-reinsert `monster_condition_immunities` behind the
`processedConditions` duplicate-skipping set. -/
def processMonster (db : MonsterDB) (d : MonsterDoc) : MonsterDB :=
  { monsters := upsertRow (fun r => r.index) db.monsters (monsterRecordOf d)
    monster_proficiencies := replaceChildren db.monster_proficiencies d.index
      (d.proficiencies.map (fun p => (p.proficiency.index, p.value)))
    monster_condition_immunities := replaceChildren db.monster_condition_immunities d.index
      (dedupFirst [] (d.condition_immunities.map (fun c => c.index))) }

/-- Detail document of one race: the fields `syncRaces` reads
(`ability_bonuses` is stringified unexamined and carries its serialized
text). -/
structure RaceDoc where
  index : String
  name : String
  speed : Int
  ability_bonuses : String
  alignment : String
  age : String
  size : String
  size_description : String
  language_desc : String
  starting_proficiencies : List APIRef
  languages : List APIRef
  traits : List APIRef
  deriving DecidableEq

/-- Row of the `races` table. -/
structure RaceRecord where
  index : String
  name : String
  speed : Int
  ability_bonuses : String
  alignment : String
  age : String
  size : String
  size_description : String
  language_desc : String
  deriving DecidableEq

/-- The `raceRecord` built inside `syncRaces`. -/
def raceRecordOf (d : RaceDoc) : RaceRecord :=
  { index := d.index, name := d.name, speed := d.speed
    ability_bonuses := d.ability_bonuses
    alignment := d.alignment, age := d.age, size := d.size
    size_description := d.size_description
    language_desc := d.language_desc }

/-- The tables written by `syncRaces`. -/
structure RaceDB where
  races : List RaceRecord
  race_proficiencies : List (String × String)
  race_languages : List (String × String)
  race_traits : List (String × String)
  deriving DecidableEq

/-- One committed `syncRaces` item transaction: upsert the parent row and
delete-then-reinsert the three child tables from the current detail
document. -/
def processRace (db : RaceDB) (d : RaceDoc) : RaceDB :=
  { races := upsertRow (fun r => r.index) db.races (raceRecordOf d)
    race_proficiencies := replaceChildren db.race_proficiencies d.index
      (d.starting_proficiencies.map (fun p => p.index))
    race_languages := replaceChildren db.race_languages d.index
      (d.languages.map (fun l => l.index))
    race_traits := replaceChildren db.race_traits d.index
      (d.traits.map (fun t => t.index)) }

/-- One option inside a proficiency choice (`choice.from.options` entries);
only the `item` sub-reference is read. -/
structure ChoiceOptionDoc where
  item : Option APIRef
  deriving DecidableEq

/-- One proficiency choice of a class detail document.  `fromOptions` stands
for the source's `choice.from.options`. -/
structure ProfChoiceDoc where
  desc : String
  choose : Int
  type : String
  fromOptions : List ChoiceOptionDoc
  deriving DecidableEq

/-- One `starting_equipment` entry of a class detail document. -/
structure StartEquipDoc where
  equipment : Option APIRef
  quantity : Int
  deriving DecidableEq

/-- One `starting_equipment_options` choice; its `from.options` sub-array is
stringified unexamined and carries its serialized text. -/
structure EquipChoiceDoc where
  desc : String
  choose : Int
  fromOptionsJson : String
  deriving DecidableEq

/-- Detail document of one class: the fields `syncClasses` reads
(`multi_classing` and `spellcasting` are stringified unexamined). -/
structure ClassDoc where
  index : String
  name : String
  hit_die : Int
  saving_throws : List APIRef
  multi_classing : String
  spellcasting : String
  proficiency_choices : List ProfChoiceDoc
  starting_equipment : List StartEquipDoc
  starting_equipment_options : List EquipChoiceDoc
  deriving DecidableEq

/-- One entry of the separately fetched `class_levels` document
(`class_specific` is stringified unexamined). -/
structure LevelDoc where
  level : Int
  ability_score_bonuses : Int
  prof_bonus : Int
  features : List APIRef
  class_specific : String
  deriving DecidableEq

/-- One entry of the separately fetched class spell list. -/
structure ClassSpellDoc where
  index : String
  level : Int
  deriving DecidableEq

/-- Everything fetched for one class item before its transaction opens: the
detail document, its `class_levels` document, and its spell list (already
defaulted to `[]` when the detail document has no `spells` url or the
response has no `results`). -/
structure ClassItemInput where
  detail : ClassDoc
  levels : List LevelDoc
  spells : List ClassSpellDoc
  deriving DecidableEq

/-- Row of the `classes` table. -/
structure ClassRecord where
  index : String
  name : String
  hit_die : Int
  saving_throws : String
  multi_classing : String
  spellcasting : String
  deriving DecidableEq

/-- The `classRecord` built inside `syncClasses`. -/
def classRecordOf (d : ClassDoc) : ClassRecord :=
  { index := d.index, name := d.name, hit_die := d.hit_die
    saving_throws := jsonArrStr (d.saving_throws.map (fun s => s.name))
    multi_classing := d.multi_classing
    spellcasting := d.spellcasting }

/-- Row payload of the `class_levels` table (the parent key is paired on by
the table). -/
structure ClassLevelRow where
  level : Int
  ability_score_bonuses : Int
  prof_bonus : Int
  features : String
  class_specific : String
  deriving DecidableEq

/-- Row payload of the `class_proficiency_choices` table. -/
structure ProfChoiceRow where
  choice_index : Nat
  description : String
  choose : Int
  type : String
  options : String
  deriving DecidableEq

/-- Row payload of the `class_starting_equipment_options` table. -/
structure EquipOptionRow where
  choice_index : Nat
  description : String
  choose : Int
  options : String
  deriving DecidableEq

/-- The stored `options` list of one proficiency choice:
`choice.from.options.map(o => o.item ? o.item.index : null).filter(Boolean)`
then `JSON.stringify`. -/
def profChoiceOptions (c : ProfChoiceDoc) : String :=
  jsonArrStr (filterTruthyStr (c.fromOptions.map (fun o => o.item.map (fun it => it.index))))

/-- The `class_starting_equipment` rows extracted from a class detail
document: an entry is inserted only when `item.equipment &&
item.equipment.index` is truthy (the equipment reference is present and its
index is a nonempty string). -/
def startingEquipmentRows (d : ClassDoc) : List (String × Int) :=
  d.starting_equipment.filterMap (fun it =>
    match it.equipment with
    | some eq => if eq.index = "" then none else some (eq.index, it.quantity)
    | none => none)

/-- The tables written by `syncClasses`. -/
structure ClassDB where
  classes : List ClassRecord
  class_levels : List (String × ClassLevelRow)
  class_spells : List (String × String × Int)
  class_proficiency_choices : List (String × ProfChoiceRow)
  class_starting_equipment : List (String × String × Int)
  class_starting_equipment_options : List (String × EquipOptionRow)
  deriving DecidableEq

/-- The empty class database. -/
def emptyClassDB : ClassDB :=
  { classes := [], class_levels := [], class_spells := []
    class_proficiency_choices := [], class_starting_equipment := []
    class_starting_equipment_options := [] }

/-- One committed `syncClasses` item transaction: upsert the parent row, then
delete-then-reinsert all five child tables from the current remote
documents. -/
def processClass (db : ClassDB) (inp : ClassItemInput) : ClassDB :=
  { classes := upsertRow (fun r => r.index) db.classes (classRecordOf inp.detail)
    class_levels := replaceChildren db.class_levels inp.detail.index
      (inp.levels.map (fun l =>
        { level := l.level
          ability_score_bonuses := l.ability_score_bonuses
          prof_bonus := l.prof_bonus
          features := jsonArrStr (l.features.map (fun f => f.name))
          class_specific := l.class_specific }))
    class_spells := replaceChildren db.class_spells inp.detail.index
      (inp.spells.map (fun s => (s.index, s.level)))
    class_proficiency_choices := replaceChildren db.class_proficiency_choices inp.detail.index
      (inp.detail.proficiency_choices.enum.map (fun p =>
        { choice_index := p.1
          description := p.2.desc
          choose := p.2.choose
          type := p.2.type
          options := profChoiceOptions p.2 }))
    class_starting_equipment := replaceChildren db.class_starting_equipment inp.detail.index
      (startingEquipmentRows inp.detail)
    class_starting_equipment_options := replaceChildren db.class_starting_equipment_options
      inp.detail.index
      (inp.detail.starting_equipment_options.enum.map (fun p =>
        { choice_index := p.1
          description := p.2.desc
          choose := p.2.choose
          options := p.2.fromOptionsJson })) }

/-! ### Orchestration models -/

/-- JavaScript `error.message || 'An error occurred on the server.'`: an
empty message is falsy and is replaced by the fallback text. -/
def errMessage (e : String) : String :=
  if e = "" then "An error occurred on the server." else e

/-- The enriched-path item loop: items are processed strictly in order; an
item whose database transaction succeeds (`none`) commits its `process`
effect, while an item whose transaction fails (`some msg`) is rolled back
(state unchanged) and aborts the loop with that error. -/
def runEnrichedAux {δ σ : Type} (process : σ → δ → σ) :
    σ → List (δ × Option String) → σ × Option String
  | db, [] => (db, none)
  | db, (d, none) :: rest => runEnrichedAux process (process db d) rest
  | db, (_, some e) :: _ => (db, some e)

/-- One enriched-path resource sync run.  Each list element pairs an item's
already-fetched input with the outcome of its database transaction (`none`
when every statement succeeds and the commit goes through, `some msg` when a
statement fails with database error message `msg`).  On full completion the
endpoint answers 200 with the resource's success message; on the first
failure it answers 500 with `{success: false, message}`. -/
def runEnriched {δ σ : Type} (process : σ → δ → σ) (label : String) (db : σ)
    (items : List (δ × Option String)) : σ × HttpResponse :=
  match runEnrichedAux process db items with
  | (db2, none) =>
      (db2, { status := 200, success := true
              message := label ++ " synced successfully! " ++
                toString items.length ++ " records processed." })
  | (db2, some e) =>
      (db2, { status := 500, success := false, message := errMessage e })

/-- Database effect of the generic path: every item's upsert is issued, and
each item whose own query succeeds takes effect regardless of the outcome of
the other items' queries. -/
def applyOkItems {ρ σ : Type} (apply : σ → ρ → σ) (db : σ)
    (items : List (ρ × Option String)) : σ :=
  items.foldl (fun s it =>
    match it.2 with
    | none => apply s it.1
    | some _ => s) db

/-- The rejection `Promise.all` settles with in the generic path: the first
failing item in issue order (the queries are enqueued on one connection in
loop order, so the temporally first rejection is the first failing item of
the list), wrapped as `Failed on <resource> <record name>: <error>`. -/
def firstFailure {ρ : Type} (resourceName : String) (recName : ρ → String)
    (items : List (ρ × Option String)) : Option String :=
  items.findSome? (fun it => it.2.map (fun e =>
    "Failed on " ++ resourceName ++ " " ++ recName it.1 ++ ": " ++ e))

/-- The generic path after all detail fetches: all upserts are issued and
awaited together; full success answers 200 with the count-bearing message,
otherwise 500 with the first rejection's message. -/
def runGenericItems {ρ σ : Type} (resourceName : String) (apply : σ → ρ → σ)
    (recName : ρ → String) (db : σ) (items : List (ρ × Option String)) :
    σ × HttpResponse :=
  (applyOkItems apply db items,
   match firstFailure resourceName recName items with
   | none =>
       { status := 200, success := true
         message := resourceName ++ " synced successfully! " ++
           toString items.length ++ " records processed." }
   | some m => { status := 500, success := false, message := errMessage m })

/-- The whole `syncResource` generic path on a successfully fetched remote
list: each endpoint's detail document is given by `fetchDetail`, turned into
a record by the resource's `recordBuilder`, and its upsert outcome by the
database oracle `dbErr` (indexed by the item's position). -/
def syncResourceRun {δ ρ σ : Type} (resourceName : String)
    (fetchDetail : String → δ) (recordBuilder : δ → ρ) (recName : ρ → String)
    (apply : σ → ρ → σ) (dbErr : Nat → Option String) (db : σ)
    (endpoints : List Endpoint) : σ × HttpResponse :=
  runGenericItems resourceName apply recName db
    (endpoints.enum.map (fun p => (recordBuilder (fetchDetail p.2.url), dbErr p.1)))

/-! ### Event-ordering model of the generic-path loop -/

/-- Observable events of the `syncResource` loop: the start and completion of
one item's detail fetch, the issuing of one item's upsert query, and the
final `Promise.all` settlement point. -/
inductive Ev where
  | fetchStart (i : Nat)
  | fetchEnd (i : Nat)
  | queryIssued (i : Nat)
  | awaitAll
  deriving DecidableEq

/-- Events of one iteration of the loop body: the iteration awaits the item's
detail fetch (start, completion) and then issues the upsert query without
awaiting it. -/
def itemEvents (i : Nat) : List Ev :=
  [Ev.fetchStart i, Ev.fetchEnd i, Ev.queryIssued i]

/-- Program-order event trace of the generic path over `n` items: the loop
runs the iterations in order, then awaits all issued queries together. -/
def genericTrace (n : Nat) : List Ev :=
  ((List.range n).flatMap itemEvents) ++ [Ev.awaitAll]

/-- Event `a` happens before event `b` in trace `tr`. -/
def precedes (tr : List Ev) (a b : Ev) : Prop :=
  ∃ l₁ l₂ l₃, tr = l₁ ++ a :: l₂ ++ b :: l₃

/-- Claim C6 as stated, on the trace model: no item's detail fetch waits for
the completion of any other item's detail fetch. -/
def noFetchWaits (n : Nat) : Prop :=
  ∀ i ∈ List.range n, ∀ j ∈ List.range n, i ≠ j →
    ¬ precedes (genericTrace n) (Ev.fetchEnd j) (Ev.fetchStart i)

/-! ### Helper lemmas -/

theorem filter_replaceChildren {γ : Type} (t : List (String × γ)) (k : String) (rs : List γ) :
    (replaceChildren t k rs).filter (fun r => r.1 == k) = rs.map (fun c => (k, c)) := by
  unfold replaceChildren
  rw [List.filter_append]
  have h1 : (t.filter (fun row => !(row.1 == k))).filter (fun r : String × γ => r.1 == k) = [] := by
    induction t with
    | nil => rfl
    | cons a t ih =>
      by_cases h : a.1 = k <;> simp [List.filter_cons, h, ih]
  have h2 : (rs.map (fun c => (k, c))).filter (fun r : String × γ => r.1 == k) =
      rs.map (fun c => (k, c)) := by
    induction rs with
    | nil => rfl
    | cons c cs ih => simp [List.filter_cons, ih]
  rw [h1, h2, List.nil_append]

theorem mem_replaceChildren_self {γ : Type} (t : List (String × γ)) (k : String)
    (rs : List γ) (c : γ) : (k, c) ∈ replaceChildren t k rs ↔ c ∈ rs := by
  unfold replaceChildren
  rw [List.mem_append]
  constructor
  · rintro (h | h)
    · have h2 := (List.mem_filter.mp h).2
      simp at h2
    · obtain ⟨x, hx, hxe⟩ := List.mem_map.mp h
      simp only [Prod.mk.injEq] at hxe
      exact hxe.2 ▸ hx
  · intro h
    exact Or.inr (List.mem_map.mpr ⟨c, h, rfl⟩)

theorem replaceChildren_idem {γ : Type} (t : List (String × γ)) (k : String) (rs : List γ) :
    replaceChildren (replaceChildren t k rs) k rs = replaceChildren t k rs := by
  unfold replaceChildren
  congr 1
  rw [List.filter_append]
  have h2 : (rs.map (fun c => (k, c))).filter (fun row => !(row.1 == k)) = [] := by
    induction rs with
    | nil => rfl
    | cons c cs ih => simp [List.filter_cons, ih]
  rw [h2, List.append_nil, List.filter_filter]
  simp only [Bool.and_self]

theorem upsertRow_idem {α : Type} (key : α → String) (t : List α) (r : α) :
    upsertRow key (upsertRow key t r) r = upsertRow key t r := by
  unfold upsertRow
  by_cases hany : (t.any fun x => key x == key r) = true
  · rw [if_pos hany]
    have hany2 : (t.map (fun x => if key x == key r then r else x)).any
        (fun x => key x == key r) = true := by
      rw [List.any_map]
      rw [List.any_eq_true] at hany ⊢
      obtain ⟨x, hx, hkx⟩ := hany
      refine ⟨x, hx, ?_⟩
      simp [Function.comp, beq_iff_eq.mp hkx]
    rw [if_pos hany2, List.map_map]
    apply List.map_congr_left
    intro x hx
    by_cases hk : key x = key r <;> simp [Function.comp, hk]
  · rw [if_neg hany]
    have hfalse : (t.any fun x => key x == key r) = false := by
      simpa using hany
    have hall := List.any_eq_false.mp hfalse
    have hany2 : (t ++ [r]).any (fun x => key x == key r) = true := by
      simp [List.any_append]
    rw [if_pos hany2, List.map_append]
    congr 1
    · conv_rhs => rw [← List.map_id t]
      apply List.map_congr_left
      intro x hx
      have hne := hall x hx
      simp only [beq_iff_eq] at hne
      simp [hne]
    · simp

theorem filter_map_subst {α : Type} (key : α → String) (t : List α) (r : α) :
    (t.map (fun x => if key x == key r then r else x)).filter (fun x => key x == key r) =
      List.replicate (t.filter (fun x => key x == key r)).length r := by
  induction t with
  | nil => rfl
  | cons a t ih =>
    by_cases hk : key a = key r
    · have ha : (key a == key r) = true := beq_iff_eq.mpr hk
      have hr : (key r == key r) = true := beq_self_eq_true _
      rw [List.map_cons, if_pos ha, List.filter_cons, if_pos hr, ih,
          List.filter_cons, if_pos ha, List.length_cons, List.replicate_succ]
    · have ha2 : ¬((key a == key r) = true) := by simp [hk]
      rw [List.map_cons, if_neg ha2, List.filter_cons, if_neg ha2, ih,
          List.filter_cons, if_neg ha2]

theorem upsertRow_filter_of_single {α : Type} (key : α → String) (t : List α) (r old : α)
    (h : t.filter (fun x => key x == key r) = [old]) :
    (upsertRow key t r).filter (fun x => key x == key r) = [r] := by
  have hmem : old ∈ t.filter (fun x => key x == key r) := by
    rw [h]; exact List.mem_singleton.mpr rfl
  have hany : t.any (fun x => key x == key r) = true :=
    List.any_eq_true.mpr ⟨old, (List.mem_filter.mp hmem).1, (List.mem_filter.mp hmem).2⟩
  unfold upsertRow
  rw [if_pos hany, filter_map_subst, h]
  rfl

theorem mem_dedupFirst {seen xs : List String} {a : String} :
    a ∈ dedupFirst seen xs ↔ a ∈ xs ∧ a ∉ seen := by
  induction xs generalizing seen with
  | nil => simp [dedupFirst]
  | cons x xs ih =>
    by_cases hx : seen.contains x = true
    · rw [dedupFirst, if_pos hx, ih]
      have hxs : x ∈ seen := by simpa using hx
      simp only [List.mem_cons]
      constructor
      · rintro ⟨h1, h2⟩
        exact ⟨Or.inr h1, h2⟩
      · rintro ⟨h1 | h1, h2⟩
        · exact absurd (h1 ▸ hxs) h2
        · exact ⟨h1, h2⟩
    · rw [dedupFirst, if_neg hx]
      have hxs : x ∉ seen := by simpa using hx
      simp only [List.mem_cons, ih, List.mem_cons]
      constructor
      · rintro (rfl | ⟨h1, h2⟩)
        · exact ⟨Or.inl rfl, hxs⟩
        · exact ⟨Or.inr h1, fun hc => h2 (Or.inr hc)⟩
      · rintro ⟨rfl | h1, h2⟩
        · exact Or.inl rfl
        · by_cases hax : a = x
          · exact Or.inl hax
          · exact Or.inr ⟨h1, fun hc => by
              rcases hc with hc | hc
              · exact hax hc
              · exact h2 hc⟩

theorem nodup_dedupFirst (seen xs : List String) : (dedupFirst seen xs).Nodup := by
  induction xs generalizing seen with
  | nil => exact List.nodup_nil
  | cons x xs ih =>
    by_cases hx : seen.contains x = true
    · rw [dedupFirst, if_pos hx]
      exact ih seen
    · rw [dedupFirst, if_neg hx]
      refine List.nodup_cons.mpr ⟨?_, ih (x :: seen)⟩
      intro hmem
      exact (mem_dedupFirst.mp hmem).2 (List.mem_cons_self x seen)

theorem runEnrichedAux_ok_append {δ σ : Type} (process : σ → δ → σ) (db : σ)
    (pre rest : List (δ × Option String)) (hpre : ∀ it ∈ pre, it.2 = none) :
    runEnrichedAux process db (pre ++ rest) =
      runEnrichedAux process (pre.foldl (fun s it => process s it.1) db) rest := by
  induction pre generalizing db with
  | nil => rfl
  | cons a pre ih =>
    obtain ⟨d, o⟩ := a
    have ho : o = none := hpre (d, o) (List.mem_cons_self _ _)
    subst ho
    simp only [List.cons_append, runEnrichedAux, List.foldl_cons]
    exact ih (process db d) (fun it hit => hpre it (List.mem_cons_of_mem _ hit))

theorem firstFailure_first {ρ : Type} (rn : String) (recName : ρ → String)
    (pre post : List (ρ × Option String)) (r : ρ) (e : String)
    (hpre : ∀ it ∈ pre, it.2 = none) :
    firstFailure rn recName (pre ++ (r, some e) :: post) =
      some ("Failed on " ++ rn ++ " " ++ recName r ++ ": " ++ e) := by
  induction pre with
  | nil => rfl
  | cons a pre ih =>
    have ho : a.2 = none := hpre a (List.mem_cons_self _ _)
    rw [List.cons_append]
    unfold firstFailure
    rw [List.findSome?_cons]
    rw [ho]
    exact ih (fun it hit => hpre it (List.mem_cons_of_mem _ hit))

theorem errMessage_of_ne (e : String) (he : e ≠ "") : errMessage e = e := by
  unfold errMessage
  rw [if_neg he]

theorem append_ne_empty_left (a b : String) (h : a ≠ "") : a ++ b ≠ "" := by
  intro hab
  apply h
  have h3 : a.length + b.length = ("" : String).length := by
    rw [← String.length_append, hab]
  have h4 : ("" : String).length = 0 := rfl
  have h5 : a.length = 0 := by omega
  cases a with
  | mk dat =>
    have h6 : dat.length = 0 := h5
    have h7 : dat = [] := List.length_eq_zero.mp h6
    rw [h7]

theorem range_split (n m : Nat) (h : m ≤ n) : ∃ t, List.range n = List.range m ++ t := by
  induction n with
  | zero =>
    have : m = 0 := Nat.le_zero.mp h
    exact ⟨[], by simp [this]⟩
  | succ n ih =>
    rcases Nat.lt_or_ge n m with h1 | h2
    · have : m = n + 1 := Nat.le_antisymm h h1
      exact ⟨[], by simp [this]⟩
    · obtain ⟨t, ht⟩ := ih h2
      exact ⟨t ++ [n], by rw [List.range_succ, ht, List.append_assoc]⟩

theorem mem_startingEquipmentRows {d : ClassDoc} {eqIdx : String} {q : Int} :
    (eqIdx, q) ∈ startingEquipmentRows d ↔
      ∃ it ∈ d.starting_equipment, ∃ r, it.equipment = some r ∧ r.index = eqIdx ∧
        eqIdx ≠ "" ∧ it.quantity = q := by
  unfold startingEquipmentRows
  rw [List.mem_filterMap]
  constructor
  · rintro ⟨it, hit, hf⟩
    refine ⟨it, hit, ?_⟩
    cases heq : it.equipment with
    | none =>
      rw [heq] at hf
      exact Option.noConfusion hf
    | some r =>
      rw [heq] at hf
      dsimp only at hf
      by_cases hr : r.index = ""
      · rw [if_pos hr] at hf
        exact Option.noConfusion hf
      · rw [if_neg hr] at hf
        have hp := Option.some.inj hf
        have h1 : r.index = eqIdx := congrArg Prod.fst hp
        have h2 : it.quantity = q := congrArg Prod.snd hp
        exact ⟨r, rfl, h1, h1 ▸ hr, h2⟩
  · rintro ⟨it, hit, r, her, hidx, hne, hq⟩
    refine ⟨it, hit, ?_⟩
    rw [her]
    dsimp only
    rw [if_neg (by rw [hidx]; exact hne), hidx, hq]

theorem mem_filterTruthyStr {xs : List (Option String)} {s : String} :
    s ∈ filterTruthyStr xs ↔ some s ∈ xs ∧ s ≠ "" := by
  unfold filterTruthyStr
  rw [List.mem_filterMap]
  constructor
  · rintro ⟨x, hx, hf⟩
    cases x with
    | none => exact Option.noConfusion hf
    | some t =>
      dsimp only at hf
      by_cases ht : t = ""
      · rw [if_pos ht] at hf
        exact Option.noConfusion hf
      · rw [if_neg ht] at hf
        have := Option.some.inj hf
        subst this
        exact ⟨hx, ht⟩
  · rintro ⟨hx, hs⟩
    refine ⟨some s, hx, ?_⟩
    dsimp only
    rw [if_neg hs]

/-! ### Concrete documents and states used by witnesses -/

/-- The skill detail document of the spec's concrete scenario. -/
def acrobaticsDoc : SkillDoc :=
  { index := "acrobatics", name := "Acrobatics", desc := ["para1", "para2"]
    ability_score := { index := "dex", name := "DEX" } }

/-- The remote detail environment of the concrete skills scenario: the single
listed url serves the acrobatics document. -/
def skillsDetailOf : String → SkillDoc := fun _ => acrobaticsDoc

/-- The `skills` table upsert. -/
def skillApply (t : List SkillRecord) (r : SkillRecord) : List SkillRecord :=
  upsertRow (fun x => x.index) t r

/-- A small monster detail document maker for concrete runs. -/
def monsterDocNamed (i n : String) : MonsterDoc :=
  { index := i, name := n, size := "Medium", type := "beast", subtype := none
    alignment := "unaligned", armor_class := "ac-blob", hit_points := 11
    hit_dice := "2d8", speed := "speed-blob"
    strength := 13, dexterity := 11, constitution := 12
    intelligence := 2, wisdom := 9, charisma := 5
    damage_vulnerabilities := [], damage_resistances := [], damage_immunities := []
    senses := "senses-blob", languages := "", challenge_rating := (1 : Rat) / 4
    xp := 50, special_abilities := "sa-blob", actions := "actions-blob"
    legendary_actions := "la-blob", proficiencies := [], condition_immunities := [] }

/-- A monster detail document that lists the same proficiency twice and the
same condition immunity twice. -/
def dupProfMonsterDoc : MonsterDoc :=
  { index := "werewolf", name := "Werewolf", size := "Medium"
    type := "humanoid", subtype := some "shapechanger", alignment := "chaotic evil"
    armor_class := "ac-blob", hit_points := 58, hit_dice := "9d8"
    speed := "speed-blob"
    strength := 15, dexterity := 13, constitution := 14
    intelligence := 10, wisdom := 11, charisma := 10
    damage_vulnerabilities := [], damage_resistances := []
    damage_immunities := ["bludgeoning"]
    senses := "senses-blob", languages := "Common"
    challenge_rating := 3, xp := 700
    special_abilities := "sa-blob", actions := "actions-blob"
    legendary_actions := "la-blob"
    proficiencies := [{ proficiency := { index := "skill-perception", name := "Skill: Perception" }, value := 4 },
                      { proficiency := { index := "skill-perception", name := "Skill: Perception" }, value := 4 }]
    condition_immunities := [{ index := "charmed", name := "Charmed" },
                             { index := "charmed", name := "Charmed" }] }

/-- A proficiency choice with one direct item reference and one item-less
option. -/
def wizardChoice : ProfChoiceDoc :=
  { desc := "Choose 2 skills", choose := 2, type := "proficiencies"
    fromOptions := [{ item := some { index := "skill-arcana", name := "Skill: Arcana" } },
                    { item := none }] }

/-- A class detail document with one starting-equipment entry lacking its
equipment reference and one proficiency-choice option lacking its item. -/
def wizardDoc : ClassDoc :=
  { index := "wizard", name := "Wizard", hit_die := 6
    saving_throws := [{ index := "int", name := "INT" }, { index := "wis", name := "WIS" }]
    multi_classing := "mc-blob", spellcasting := "sc-blob"
    proficiency_choices := [wizardChoice]
    starting_equipment := [{ equipment := some { index := "quarterstaff", name := "Quarterstaff" }, quantity := 1 },
                           { equipment := none, quantity := 3 }]
    starting_equipment_options := [{ desc := "(a) or (b)", choose := 1, fromOptionsJson := "opts-blob" }] }

/-- One fetched class item built on `wizardDoc`. -/
def wizardInput : ClassItemInput :=
  { detail := wizardDoc
    levels := [{ level := 1, ability_score_bonuses := 0, prof_bonus := 2
                 features := [{ index := "spellcasting-wizard", name := "Spellcasting" }]
                 class_specific := "cs-blob" }]
    spells := [{ index := "magic-missile", level := 1 }] }

/-- The stale parent row replaced in the C2 witness. -/
def staleWizardRow : ClassRecord :=
  { index := "wizard", name := "Wizard", hit_die := 4
    saving_throws := "old-st", multi_classing := "old-mc", spellcasting := "old-sc" }

/-- A class database already holding a stale row for the wizard key. -/
def classDB0 : ClassDB :=
  { classes := [staleWizardRow]
    class_levels := [], class_spells := [], class_proficiency_choices := []
    class_starting_equipment := [], class_starting_equipment_options := [] }

/-- Concrete skill rows for the C9 witness. -/
def skillRowA : SkillRecord :=
  { index := "athletics", name := "Athletics", description := "dA", ability_score := "STR" }

/-- Second concrete skill row (its upsert fails in the C9 witness). -/
def skillRowB : SkillRecord :=
  { index := "stealth", name := "Stealth", description := "dB", ability_score := "DEX" }

/-- Third concrete skill row. -/
def skillRowC : SkillRecord :=
  { index := "arcana", name := "Arcana", description := "dC", ability_score := "INT" }

/-! ### Claim theorems -/

/-- C1.  For every enriched-path parent item, one sync run deletes all child
rows carrying that parent's natural key and reinserts the records extracted
from the current detail document, so that afterwards the child tables for
that parent hold exactly the current nested collections: entries removed
remotely are gone, entries added remotely are present, and entries present in
both remain as single rows.  Stated for the cited resources: all three race
child tables and both monster child tables (the condition-immunity table
holds the first-seen-deduplicated extraction, which is pointwise the same
collection, as the final membership equivalence states). -/
theorem C1_child_replacement (db : RaceDB) (mdb : MonsterDB) (d : RaceDoc) (m : MonsterDoc) :
    ((processRace db d).race_proficiencies.filter (fun r => r.1 == d.index) =
        d.starting_proficiencies.map (fun p => (d.index, p.index)))
    ∧ ((processRace db d).race_languages.filter (fun r => r.1 == d.index) =
        d.languages.map (fun l => (d.index, l.index)))
    ∧ ((processRace db d).race_traits.filter (fun r => r.1 == d.index) =
        d.traits.map (fun t => (d.index, t.index)))
    ∧ ((processMonster mdb m).monster_proficiencies.filter (fun r => r.1 == m.index) =
        m.proficiencies.map (fun p => (m.index, p.proficiency.index, p.value)))
    ∧ ((processMonster mdb m).monster_condition_immunities.filter (fun r => r.1 == m.index) =
        (dedupFirst [] (m.condition_immunities.map (fun c => c.index))).map
          (fun c => (m.index, c)))
    ∧ (∀ c, (m.index, c) ∈ (processMonster mdb m).monster_condition_immunities ↔
        c ∈ m.condition_immunities.map (fun x => x.index)) := by
  refine ⟨?_, ?_, ?_, ?_, ?_, ?_⟩
  · have h := filter_replaceChildren db.race_proficiencies d.index
      (d.starting_proficiencies.map (fun p => p.index))
    rw [List.map_map] at h
    exact h
  · have h := filter_replaceChildren db.race_languages d.index
      (d.languages.map (fun l => l.index))
    rw [List.map_map] at h
    exact h
  · have h := filter_replaceChildren db.race_traits d.index
      (d.traits.map (fun t => t.index))
    rw [List.map_map] at h
    exact h
  · have h := filter_replaceChildren mdb.monster_proficiencies m.index
      (m.proficiencies.map (fun p => (p.proficiency.index, p.value)))
    rw [List.map_map] at h
    exact h
  · exact filter_replaceChildren mdb.monster_condition_immunities m.index
      (dedupFirst [] (m.condition_immunities.map (fun c => c.index)))
  · intro c
    rw [show (processMonster mdb m).monster_condition_immunities =
          replaceChildren mdb.monster_condition_immunities m.index
            (dedupFirst [] (m.condition_immunities.map (fun x => x.index))) from rfl]
    rw [mem_replaceChildren_self, mem_dedupFirst]
    simp

/-- C2.  Running one enriched sync item against a parent natural key that
already exists produces exactly one row for that key holding the new values
(insert-or-update on natural-key conflict, never a duplicate), and running the
same item twice with identical input leaves the whole stored state — parent
and all child tables — identical after each run.  Stated for the cited
instance, `syncClasses`. -/
theorem C2_upsert_idempotent (db : ClassDB) (inp : ClassItemInput) :
    processClass (processClass db inp) inp = processClass db inp ∧
    (∀ old, db.classes.filter (fun r => r.index == inp.detail.index) = [old] →
      (processClass db inp).classes.filter (fun r => r.index == inp.detail.index) =
        [classRecordOf inp.detail]) := by
  constructor
  · show ClassDB.mk _ _ _ _ _ _ = ClassDB.mk _ _ _ _ _ _
    rw [ClassDB.mk.injEq]
    exact ⟨upsertRow_idem _ _ _, replaceChildren_idem _ _ _, replaceChildren_idem _ _ _,
      replaceChildren_idem _ _ _, replaceChildren_idem _ _ _, replaceChildren_idem _ _ _⟩
  · intro old h
    exact upsertRow_filter_of_single (fun r : ClassRecord => r.index) db.classes
      (classRecordOf inp.detail) old h

/-- Witness for C2 at a concrete class item whose key already has a stale
row: one row with the new values remains and a second identical run is a
no-op. -/
theorem C2_witness :
    (processClass classDB0 wizardInput).classes.filter
        (fun r => r.index == wizardInput.detail.index) = [classRecordOf wizardInput.detail] ∧
    processClass (processClass classDB0 wizardInput) wizardInput =
      processClass classDB0 wizardInput :=
  ⟨(C2_upsert_idempotent classDB0 wizardInput).2 staleWizardRow (by decide),
   (C2_upsert_idempotent classDB0 wizardInput).1⟩

/-- C3.  In the enriched path, when the failing item's transaction rejects,
the items before it stay committed (the final state is the fold of their
committed transactions only), the failing item's parent upsert and child
writes are rolled back entirely (the state does not depend on its document),
the items after it are never attempted (the state does not depend on them),
and the endpoint answers 500 with `{success: false, message}` carrying that
first error's description.  Stated generically over the per-item transaction
of any enriched resource. -/
theorem C3_fail_fast {δ σ : Type} (process : σ → δ → σ) (label : String) (db : σ)
    (pre post : List (δ × Option String)) (d : δ) (e : String)
    (hpre : ∀ it ∈ pre, it.2 = none) (he : e ≠ "") :
    runEnriched process label db (pre ++ (d, some e) :: post) =
      (pre.foldl (fun s it => process s it.1) db,
       { status := 500, success := false, message := e }) := by
  unfold runEnriched
  rw [runEnrichedAux_ok_append process db pre _ hpre]
  simp [runEnrichedAux, errMessage_of_ne e he]

/-- Witness for C3: a three-monster run whose second item's transaction
fails; the first item's writes survive, the second and third leave no trace,
and the response is the 500 failure with the error's message. -/
theorem C3_witness :
    runEnriched processMonster "Monsters" emptyMonsterDB
        [(monsterDocNamed "boar" "Boar", none),
         (monsterDocNamed "wolf" "Wolf", some "ER_LOCK_DEADLOCK"),
         (monsterDocNamed "rat" "Rat", none)] =
      (processMonster emptyMonsterDB (monsterDocNamed "boar" "Boar"),
       { status := 500, success := false, message := "ER_LOCK_DEADLOCK" }) := by
  have h := C3_fail_fast processMonster "Monsters" emptyMonsterDB
      [(monsterDocNamed "boar" "Boar", none)] [(monsterDocNamed "rat" "Rat", none)]
      (monsterDocNamed "wolf" "Wolf") "ER_LOCK_DEADLOCK" (by simp) (by decide)
  exact h

/-- C4's universal skip-duplicates property instantiated at the monster
proficiency child table: any single detail document yields pairwise distinct
composite keys (monster index, proficiency index) — what first-seen-wins
skipping would guarantee. -/
def profDedupApplied : Prop :=
  ∀ d : MonsterDoc,
    (((processMonster emptyMonsterDB d).monster_proficiencies).map
        (fun r => (r.1, r.2.1))).Nodup

/-- Counterexample to C4 as stated: the skip-duplicates behaviour does not
apply to every child table.  A monster document listing the same proficiency
twice produces two `monster_proficiencies` insert attempts with the same
composite key — nothing skips them. -/
theorem C4_counterexample : ¬ profDedupApplied := fun h =>
  absurd (h dupProfMonsterDoc) (by decide)

/-- C4 amended.  Skipping of already-seen composite keys (first-seen wins)
applies to the monster condition-immunity child table — a document listing the
same condition index twice yields exactly one row per pair, and every listed
condition is present — but not to every child table: the monster proficiency
records are inserted verbatim, duplicates included. -/
theorem C4_amended (db : MonsterDB) (d : MonsterDoc) :
    (((processMonster db d).monster_condition_immunities.filter
        (fun r => r.1 == d.index)).map Prod.snd).Nodup ∧
    (∀ c ∈ d.condition_immunities, (d.index, c.index) ∈
        (processMonster db d).monster_condition_immunities) ∧
    ((processMonster db d).monster_proficiencies.filter (fun r => r.1 == d.index) =
        d.proficiencies.map (fun p => (d.index, p.proficiency.index, p.value))) := by
  refine ⟨?_, ?_, ?_⟩
  · rw [show (processMonster db d).monster_condition_immunities =
          replaceChildren db.monster_condition_immunities d.index
            (dedupFirst [] (d.condition_immunities.map (fun x => x.index))) from rfl]
    rw [filter_replaceChildren, List.map_map]
    simpa using nodup_dedupFirst [] (d.condition_immunities.map (fun x => x.index))
  · intro c hc
    rw [show (processMonster db d).monster_condition_immunities =
          replaceChildren db.monster_condition_immunities d.index
            (dedupFirst [] (d.condition_immunities.map (fun x => x.index))) from rfl]
    rw [mem_replaceChildren_self, mem_dedupFirst]
    exact ⟨List.mem_map.mpr ⟨c, hc, rfl⟩, List.not_mem_nil _⟩
  · have h := filter_replaceChildren db.monster_proficiencies d.index
      (d.proficiencies.map (fun p => (p.proficiency.index, p.value)))
    rw [List.map_map] at h
    exact h

/-- Witness for the amended C4 at the duplicate-listing monster document: the
condition-immunity rows are duplicate-free and the charmed pair is present. -/
theorem C4_amended_witness :
    (((processMonster emptyMonsterDB dupProfMonsterDoc).monster_condition_immunities.filter
        (fun r => r.1 == dupProfMonsterDoc.index)).map Prod.snd).Nodup ∧
    (dupProfMonsterDoc.index, "charmed") ∈
      (processMonster emptyMonsterDB dupProfMonsterDoc).monster_condition_immunities :=
  ⟨(C4_amended emptyMonsterDB dupProfMonsterDoc).1,
   (C4_amended emptyMonsterDB dupProfMonsterDoc).2.1
     { index := "charmed", name := "Charmed" } (by decide)⟩

/-- C5.  Every record builder that reads a paragraph-array `desc` stores the
description column as the array's elements joined with the two-character
blank-line separator: skills, ability scores, damage types, conditions,
weapon properties, feats, magic items, features, spells, traits and
subclasses all join with `"\n\n"`; in particular a two-paragraph array
becomes the first paragraph, a blank line, and the second paragraph. -/
theorem C5_desc_join (s : SkillDoc) (a b c w : SimpleDoc) (f : FeatDoc)
    (mi : MagicItemDoc) (ft : FeatureDoc) (sp : SpellDoc) (tr : TraitDoc)
    (sc : SubclassDoc) (p q : String) :
    (skillRecordOf s).description = String.intercalate "\n\n" s.desc ∧
    (abilityScoreRecordOf a).description = String.intercalate "\n\n" a.desc ∧
    (damageTypeRecordOf b).description = String.intercalate "\n\n" b.desc ∧
    (conditionRecordOf c).description = String.intercalate "\n\n" c.desc ∧
    (weaponPropertyRecordOf w).description = String.intercalate "\n\n" w.desc ∧
    (featRecordOf f).description = String.intercalate "\n\n" f.desc ∧
    (magicItemRecordOf mi).description = String.intercalate "\n\n" mi.desc ∧
    (featureRecordOf ft).description = String.intercalate "\n\n" ft.desc ∧
    (spellRecordOf sp).description = String.intercalate "\n\n" sp.desc ∧
    (traitRecordOf tr).description = String.intercalate "\n\n" tr.desc ∧
    (subclassRecordOf sc).description = String.intercalate "\n\n" sc.desc ∧
    (s.desc = [p, q] → (skillRecordOf s).description = p ++ "\n\n" ++ q) := by
  refine ⟨rfl, rfl, rfl, rfl, rfl, rfl, rfl, rfl, rfl, rfl, rfl, ?_⟩
  intro h
  show String.intercalate "\n\n" s.desc = p ++ "\n\n" ++ q
  rw [h]
  rfl

/-- Witness for C5 at the concrete two-paragraph skill document. -/
theorem C5_witness :
    (skillRecordOf acrobaticsDoc).description = "para1" ++ "\n\n" ++ "para2" :=
  (C5_desc_join acrobaticsDoc ⟨"i", "n", []⟩ ⟨"i", "n", []⟩ ⟨"i", "n", []⟩ ⟨"i", "n", []⟩
    ⟨"i", "n", "p", []⟩ ⟨"i", "n", none, ⟨"r", "R"⟩, []⟩
    ⟨"i", "n", ⟨"c", "C"⟩, none, 1, []⟩
    ⟨"i", "n", [], none, "rg", [], none, false, "du", false, "ct", 1, ⟨"s", "S"⟩, "dmg", [], []⟩
    ⟨"i", "n", [], [], [], []⟩ ⟨"i", "n", ⟨"c", "C"⟩, "fl", []⟩
    "para1" "para2").2.2.2.2.2.2.2.2.2.2.2 rfl

/-- C6 counterexample.  The claim — in the generic path no item's detail
fetch waits for the completion of any other item's detail fetch — is false on
the loop's program-order trace: with two items, item 0's fetch completes
before item 1's fetch starts, because the loop awaits each detail fetch
before moving to the next item. -/
theorem C6_counterexample : ¬ noFetchWaits 2 := by
  intro h
  exact h 1 (by decide) 0 (by decide) (by decide)
    ⟨[Ev.fetchStart 0], [Ev.queryIssued 0],
     [Ev.fetchEnd 1, Ev.queryIssued 1, Ev.awaitAll], by decide⟩

/-- C6 amended.  In the generic path the detail fetches are sequential — each
item's fetch is awaited before the next item's fetch starts — while the
upserts are issued without awaiting and only settle together at the final
`Promise.all` point, after every query has been issued. -/
theorem C6_amended (n i : Nat) (h : i + 1 < n) :
    precedes (genericTrace n) (Ev.fetchEnd i) (Ev.fetchStart (i + 1)) ∧
    (∀ k, k < n → precedes (genericTrace n) (Ev.queryIssued k) Ev.awaitAll) := by
  constructor
  · obtain ⟨t, ht⟩ := range_split n (i + 2) h
    have h2 : List.range (i + 2) = List.range (i + 1) ++ [i + 1] := List.range_succ (i + 1)
    have h3 : List.range (i + 1) = List.range i ++ [i] := List.range_succ i
    refine ⟨(List.range i).flatMap itemEvents ++ [Ev.fetchStart i], [Ev.queryIssued i],
      [Ev.fetchEnd (i + 1), Ev.queryIssued (i + 1)] ++ t.flatMap itemEvents ++
        [Ev.awaitAll], ?_⟩
    unfold genericTrace
    rw [ht, h2, h3]
    simp [itemEvents, List.append_assoc]
  · intro k hk
    have hmem : Ev.queryIssued k ∈ (List.range n).flatMap itemEvents :=
      List.mem_flatMap.mpr ⟨k, List.mem_range.mpr hk, by simp [itemEvents]⟩
    obtain ⟨s, t2, hst⟩ := List.append_of_mem hmem
    refine ⟨s, t2, [], ?_⟩
    unfold genericTrace
    rw [hst]

/-- Witness for the amended C6 at three items: item 0's fetch completes
before item 1's starts, and item 2's query is issued before the joint await
point. -/
theorem C6_amended_witness :
    precedes (genericTrace 3) (Ev.fetchEnd 0) (Ev.fetchStart 1) ∧
    precedes (genericTrace 3) (Ev.queryIssued 2) Ev.awaitAll :=
  ⟨(C6_amended 3 0 (by decide)).1, (C6_amended 3 0 (by decide)).2 2 (by decide)⟩

/-- C7.  The spec's concrete generic-path scenario: syncing `skills` against
the one-item remote list whose detail document is the acrobatics document
upserts exactly the row with the joined description and the ability-score
name, and answers HTTP 200 with
`{success: true, message: "skills synced successfully! 1 records processed."}`. -/
theorem C7_skills_scenario :
    syncResourceRun "skills" skillsDetailOf skillRecordOf (fun r => r.name)
        skillApply (fun _ => none) ([] : List SkillRecord)
        [{ name := "Acrobatics", url := "/api/skills/acrobatics" }] =
      ([{ index := "acrobatics", name := "Acrobatics"
          description := "para1\n\npara2", ability_score := "DEX" }],
       { status := 200, success := true
         message := "skills synced successfully! 1 records processed." }) := by
  decide

/-- C8.  Record builders tolerate absent optional nested fields without
failing: a monster document without a `subtype`, and a spell document without
`higher_level` text or `material`, map those fields to the explicit
absent-value marker `null` in the produced record (the builders are total
functions, so the item's sync proceeds normally with the built record). -/
theorem C8_absent_fields (m : MonsterDoc) (sp : SpellDoc)
    (hm : m.subtype = none) (hh : sp.higher_level = none) (hmat : sp.material = none) :
    (monsterRecordOf m).subtype = none ∧
    (spellRecordOf sp).higher_level = none ∧
    (spellRecordOf sp).material = none := by
  refine ⟨?_, ?_, ?_⟩
  · show orNullStr m.subtype = none
    rw [hm]
    rfl
  · show sp.higher_level.map (String.intercalate "\n\n") = none
    rw [hh]
    rfl
  · show orNullStr sp.material = none
    rw [hmat]
    rfl

/-- Witness for C8 at a concrete subtype-less monster document and a concrete
spell document without higher-level text or material. -/
theorem C8_witness :
    (monsterRecordOf (monsterDocNamed "boar" "Boar")).subtype = none ∧
    (spellRecordOf ⟨"i", "n", ["d"], none, "rg", ["V"], none, false, "du", false,
        "ct", 1, ⟨"s", "S"⟩, "dmg", [], []⟩).higher_level = none ∧
    (spellRecordOf ⟨"i", "n", ["d"], none, "rg", ["V"], none, false, "du", false,
        "ct", 1, ⟨"s", "S"⟩, "dmg", [], []⟩).material = none :=
  C8_absent_fields (monsterDocNamed "boar" "Boar")
    ⟨"i", "n", ["d"], none, "rg", ["V"], none, false, "du", false,
     "ct", 1, ⟨"s", "S"⟩, "dmg", [], []⟩ rfl rfl rfl

/-- C9.  In the generic path, one item's failing upsert rejects only that
item's promise: every other item's query is still issued and every item whose
own query succeeds takes effect — including items after the failing one —
while the resource-level response is 500 `{success: false, message}` carrying
the first rejection's wrapped error message. -/
theorem C9_generic_failure {ρ σ : Type} (resourceName : String) (apply : σ → ρ → σ)
    (recName : ρ → String) (db : σ) (pre post : List (ρ × Option String))
    (r : ρ) (e : String) (hpre : ∀ it ∈ pre, it.2 = none) :
    runGenericItems resourceName apply recName db (pre ++ (r, some e) :: post) =
      (applyOkItems apply (pre.foldl (fun s it => apply s it.1) db) post,
       { status := 500, success := false
         message := "Failed on " ++ resourceName ++ " " ++ recName r ++ ": " ++ e }) := by
  unfold runGenericItems
  rw [firstFailure_first resourceName recName pre post r e hpre]
  dsimp only
  have hne : ("Failed on " ++ resourceName ++ " " ++ recName r ++ ": " ++ e) ≠ "" :=
    append_ne_empty_left _ e (append_ne_empty_left _ ": "
      (append_ne_empty_left _ (recName r) (append_ne_empty_left _ " "
        (append_ne_empty_left "Failed on " resourceName (by decide)))))
  rw [errMessage_of_ne _ hne]
  refine Prod.ext ?_ rfl
  show applyOkItems apply db (pre ++ (r, some e) :: post) = _
  unfold applyOkItems
  rw [List.foldl_append, List.foldl_cons]
  have hfold : pre.foldl (fun s it =>
      match it.2 with
      | none => apply s it.1
      | some _ => s) db = pre.foldl (fun s it => apply s it.1) db := by
    induction pre generalizing db with
    | nil => rfl
    | cons a pre ih =>
      rw [List.foldl_cons, List.foldl_cons, hpre a (List.mem_cons_self _ _)]
      exact ih _ (fun it hit => hpre it (List.mem_cons_of_mem _ hit))
  rw [hfold]

/-- Witness for C9: three skill upserts of which the second fails; the first
and third rows are both stored and the response is the 500 failure carrying
the wrapped first error. -/
theorem C9_witness :
    runGenericItems "skills" skillApply (fun r => r.name) ([] : List SkillRecord)
        [(skillRowA, none), (skillRowB, some "ER_DUP_ENTRY"), (skillRowC, none)] =
      ([skillRowA, skillRowC],
       { status := 500, success := false
         message := "Failed on skills Stealth: ER_DUP_ENTRY" }) := by
  have h := C9_generic_failure "skills" skillApply (fun r => r.name)
      ([] : List SkillRecord) [(skillRowA, none)] [(skillRowC, none)]
      skillRowB "ER_DUP_ENTRY" (by simp)
  exact h.trans (by decide)

/-- C10.  In the classes sync, a `starting_equipment` entry is persisted iff
it carries an equipment reference with a truthy index — entries lacking the
sub-object are silently skipped — and each proficiency choice's stored row
keeps, inside its serialized options list, exactly the options that are
direct item references with a truthy index (the `null`s produced for
item-less options are filtered out before `JSON.stringify`); so the persisted
child data can be a strict subset of the document's entries. -/
theorem C10_class_filters (db : ClassDB) (inp : ClassItemInput) :
    (∀ eqIdx q, (inp.detail.index, eqIdx, q) ∈
        (processClass db inp).class_starting_equipment ↔
      ∃ it ∈ inp.detail.starting_equipment, ∃ r, it.equipment = some r ∧
        r.index = eqIdx ∧ eqIdx ≠ "" ∧ it.quantity = q) ∧
    (∀ p ∈ inp.detail.proficiency_choices.enum,
      (inp.detail.index,
       ({ choice_index := p.1, description := p.2.desc, choose := p.2.choose
          type := p.2.type, options := profChoiceOptions p.2 } : ProfChoiceRow)) ∈
        (processClass db inp).class_proficiency_choices) ∧
    (∀ c : ProfChoiceDoc, ∀ s,
      s ∈ filterTruthyStr (c.fromOptions.map (fun o => o.item.map (fun it => it.index))) ↔
        ∃ o ∈ c.fromOptions, ∃ r, o.item = some r ∧ r.index = s ∧ s ≠ "") := by
  refine ⟨?_, ?_, ?_⟩
  · intro eqIdx q
    rw [show (processClass db inp).class_starting_equipment =
          replaceChildren db.class_starting_equipment inp.detail.index
            (startingEquipmentRows inp.detail) from rfl]
    rw [mem_replaceChildren_self]
    exact mem_startingEquipmentRows
  · intro p hp
    rw [show (processClass db inp).class_proficiency_choices =
          replaceChildren db.class_proficiency_choices inp.detail.index
            (inp.detail.proficiency_choices.enum.map (fun p =>
              ({ choice_index := p.1, description := p.2.desc, choose := p.2.choose
                 type := p.2.type, options := profChoiceOptions p.2 } : ProfChoiceRow)))
          from rfl]
    rw [mem_replaceChildren_self]
    exact List.mem_map.mpr ⟨p, hp, rfl⟩
  · intro c s
    rw [mem_filterTruthyStr, List.mem_map]
    constructor
    · rintro ⟨⟨o, ho, hom⟩, hs⟩
      obtain ⟨r, hr, hri⟩ := Option.map_eq_some'.mp hom
      exact ⟨o, ho, r, hr, hri, hs⟩
    · rintro ⟨o, ho, r, hr, hri, hs⟩
      exact ⟨⟨o, ho, by rw [hr]; simpa using hri⟩, hs⟩

/-- Witness for C10 at the wizard document: the quarterstaff entry (which has
an equipment reference) is stored, and the arcana option (a direct item
reference) is kept by the option filter. -/
theorem C10_witness :
    (("wizard", "quarterstaff", (1 : Int)) ∈
      (processClass emptyClassDB wizardInput).class_starting_equipment) ∧
    ("skill-arcana" ∈ filterTruthyStr
      (wizardChoice.fromOptions.map (fun o => o.item.map (fun it => it.index)))) := by
  constructor
  · exact ((C10_class_filters emptyClassDB wizardInput).1 "quarterstaff" 1).mpr
      ⟨{ equipment := some { index := "quarterstaff", name := "Quarterstaff" }, quantity := 1 },
       by decide, { index := "quarterstaff", name := "Quarterstaff" }, rfl, rfl,
       by decide, rfl⟩
  · exact ((C10_class_filters emptyClassDB wizardInput).2.2
      wizardChoice "skill-arcana").mpr
      ⟨{ item := some { index := "skill-arcana", name := "Skill: Arcana" } }, by decide,
       { index := "skill-arcana", name := "Skill: Arcana" }, rfl, rfl, by decide⟩

end DndDbBuilder
